import Mathlib

/-!
Verification of the `AudioQueueManager` / `AudioTask` subsystem of the
text2speech repository (`text2speech/audio_queue.py`), as a shallow
embedding in Lean 4.

Modelling conventions:
* message text is `List Char`;
* `priority` is `Int` (a Python `int`);
* timestamps and the duplicate timeout are `Int` (`time.time()` values);
* the recent-message dict `{text: timestamp}` is an association list with
  unique keys, dict insertion updating in place or appending;
* the `queue.PriorityQueue` contents are a `List AudioTask`; dequeuing
  takes a minimal element with respect to `AudioTask.lt` (the heap
  property of `heapq` underlying `PriorityQueue`);
* exceptions are explicit: `put_nowait` returns `Option`, `shutdown`
  returns `Except`.
-/

/-- `AudioTask` dataclass: text, priority (higher = more urgent) and
creation timestamp (`time.time()` at enqueue). -/
structure AudioTask where
  text : List Char
  priority : Int
  timestamp : Int
  deriving Repr, DecidableEq

namespace AudioTask

/-- `AudioTask.__lt__`: inverted priority (higher priority value is
processed first); ties broken by older timestamp first. -/
def lt (self other : AudioTask) : Bool :=
  if self.priority ≠ other.priority then
    self.priority > other.priority
  else
    self.timestamp < other.timestamp

end AudioTask

/-- The statistics dictionary `self._stats` of `AudioQueueManager`. -/
structure Stats where
  messages_queued : Nat
  messages_played : Nat
  messages_skipped_duplicate : Nat
  messages_skipped_full : Nat
  errors : Nat
  deriving Repr, DecidableEq

/-- The fresh statistics dictionary built in `AudioQueueManager.__init__`. -/
def Stats.init : Stats :=
  { messages_queued := 0, messages_played := 0,
    messages_skipped_duplicate := 0, messages_skipped_full := 0, errors := 0 }

/-- The recent-messages dict `{text: timestamp}` as an association list. -/
abbrev RecentMap := List (List Char × Int)

namespace RecentMap

/-- `text in recent_messages` followed by `recent_messages[text]`:
lookup of a key in the dict. -/
def lookup (m : RecentMap) (text : List Char) : Option Int :=
  match m with
  | [] => none
  | (k, v) :: rest => if k = text then some v else lookup rest text

/-- `self._recent_messages[text] = current_time`: dict assignment,
updating the entry in place when the key is present, appending otherwise. -/
def insert (m : RecentMap) (text : List Char) (ts : Int) : RecentMap :=
  match m with
  | [] => [(text, ts)]
  | (k, v) :: rest =>
      if k = text then (k, ts) :: rest else (k, v) :: insert rest text ts

end RecentMap

/-- State of an `AudioQueueManager` instance: configuration, the priority
queue contents, the recent-message dict, counters, and the lifecycle
fields (`_worker_thread` as `Option` of an alive flag, `_shutdown_event`). -/
structure ManagerState where
  max_queue_size : Int
  duplicate_timeout : Int
  queue : List AudioTask
  recent_messages : RecentMap
  stats : Stats
  worker_thread : Option Bool
  shutdown_event : Bool
  deriving Repr, DecidableEq

namespace ManagerState

/-- `AudioQueueManager.__init__` with a given `max_queue_size` and
`duplicate_timeout` (defaults 50 and 2.0). -/
def init (max_queue_size : Int) (duplicate_timeout : Int) : ManagerState :=
  { max_queue_size := max_queue_size, duplicate_timeout := duplicate_timeout,
    queue := [], recent_messages := [], stats := Stats.init,
    worker_thread := none, shutdown_event := false }

end ManagerState

/-- `Queue.put_nowait` of the standard library `queue` module: raises
`Full` (here `none`) when `maxsize > 0` and the queue already holds at
least `maxsize` items, otherwise inserts the item. -/
def putNowait (maxsize : Int) (q : List AudioTask) (t : AudioTask) :
    Option (List AudioTask) :=
  if 0 < maxsize ∧ (maxsize : Int) ≤ (q.length : Int) then none
  else some (q ++ [t])

/-- `AudioQueueManager._is_duplicate`: the text is a recent duplicate when
it is in the dict and `time.time() - last_time < duplicate_timeout`. -/
def isDuplicate (s : ManagerState) (text : List Char) (now : Int) : Bool :=
  match RecentMap.lookup s.recent_messages text with
  | some last_time => now - last_time < s.duplicate_timeout
  | none => false

/-- `AudioQueueManager._track_message`: store the current time for the
text; when the dict then holds more than 100 entries, keep only entries
with timestamp strictly above `current_time - duplicate_timeout`. -/
def trackMessage (recent : RecentMap) (duplicate_timeout : Int)
    (text : List Char) (now : Int) : RecentMap :=
  let updated := RecentMap.insert recent text now
  if 100 < updated.length then
    updated.filter (fun p => decide (now - duplicate_timeout < p.2))
  else
    updated

/-- Python `str.strip()` produces the empty string, which also covers the
`not text` test for the empty string: every character is whitespace. -/
def blankText (text : List Char) : Bool :=
  text.all Char.isWhitespace

/-- `AudioQueueManager.enqueue(text, priority)` with the call-time clock
value `now` made explicit; returns the boolean result and the new state. -/
def enqueue (s : ManagerState) (text : List Char) (priority : Int)
    (now : Int) : Bool × ManagerState :=
  if blankText text then (false, s)
  else if isDuplicate s text now then
    (false, { s with stats := { s.stats with
      messages_skipped_duplicate := s.stats.messages_skipped_duplicate + 1 } })
  else
    let task : AudioTask := { text := text, priority := priority, timestamp := now }
    match putNowait s.max_queue_size s.queue task with
    | some q =>
        (true, { s with
          queue := q,
          stats := { s.stats with messages_queued := s.stats.messages_queued + 1 },
          recent_messages := trackMessage s.recent_messages s.duplicate_timeout text now })
    | none =>
        (false, { s with stats := { s.stats with
          messages_skipped_full := s.stats.messages_skipped_full + 1 } })

/-- The minimum of a non-empty collection of tasks under `AudioTask.lt`,
as maintained at the root of the binary heap backing `PriorityQueue`. -/
def findMin (m : AudioTask) : List AudioTask → AudioTask
  | [] => m
  | t :: ts => findMin (if AudioTask.lt t m then t else m) ts

/-- The task returned by `Queue.get` on a non-empty priority queue: a
minimal element of the heap under `AudioTask.lt`. -/
def queueGet : List AudioTask → Option AudioTask
  | [] => none
  | t :: ts => some (findMin t ts)

theorem lt_iff (a b : AudioTask) :
    AudioTask.lt a b = true ↔
      a.priority > b.priority ∨
        (a.priority = b.priority ∧ a.timestamp < b.timestamp) := by
  unfold AudioTask.lt
  by_cases h : a.priority = b.priority
  · simp [h]
  · simp [h]

theorem lt_trans_bool (a b c : AudioTask)
    (hab : AudioTask.lt a b = true) (hbc : AudioTask.lt b c = true) :
    AudioTask.lt a c = true := by
  rw [lt_iff] at hab hbc ⊢
  rcases hab with h1 | ⟨h1, h1'⟩ <;> rcases hbc with h2 | ⟨h2, h2'⟩
  · exact Or.inl (lt_trans h2 h1)
  · exact Or.inl (h2 ▸ h1)
  · exact Or.inl (h1 ▸ h2)
  · exact Or.inr ⟨h1.trans h2, h1'.trans h2'⟩

theorem lt_irrefl_bool (a : AudioTask) : AudioTask.lt a a = false := by
  unfold AudioTask.lt
  simp

theorem lt_of_lt_of_not_lt (a b c : AudioTask)
    (h1 : AudioTask.lt a c = true) (h2 : AudioTask.lt b c = false) :
    AudioTask.lt a b = true := by
  rw [lt_iff] at h1 ⊢
  have h2' : ¬ (b.priority > c.priority ∨
      (b.priority = c.priority ∧ b.timestamp < c.timestamp)) := by
    rw [← lt_iff]
    simp [h2]
  push_neg at h2'
  obtain ⟨hp, ht⟩ := h2'
  rcases h1 with h | ⟨hpeq, hts⟩
  · rcases lt_or_eq_of_le hp with h' | h'
    · exact Or.inl (h'.trans h)
    · exact Or.inl (by rw [h']; exact h)
  · rcases lt_or_eq_of_le hp with h' | h'
    · exact Or.inl (by rw [hpeq]; exact h')
    · exact Or.inr ⟨hpeq.trans h'.symm, lt_of_lt_of_le hts (ht h')⟩

theorem findMin_not_lt (ts : List AudioTask) :
    ∀ m e : AudioTask, e ∈ m :: ts → AudioTask.lt e (findMin m ts) = false := by
  induction ts with
  | nil =>
      intro m e he
      simp at he
      subst he
      simpa [findMin] using lt_irrefl_bool e
  | cons t ts ih =>
      intro m e he
      by_cases hlt : AudioTask.lt t m = true
      · have hfm : findMin m (t :: ts) = findMin t ts := by
          simp [findMin, hlt]
        rw [hfm]
        rcases List.mem_cons.mp he with he | he
        · subst he
          cases hcon : AudioTask.lt e (findMin t ts) with
          | false => rfl
          | true =>
              have h1 : AudioTask.lt t (findMin t ts) = true :=
                lt_trans_bool t e (findMin t ts) hlt hcon
              have h2 : AudioTask.lt t (findMin t ts) = false :=
                ih t t (List.mem_cons_self t ts)
              rw [h1] at h2
              exact absurd h2 (by simp)
        · exact ih t e he
      · have hfm : findMin m (t :: ts) = findMin m ts := by
          simp [findMin, hlt]
        rw [hfm]
        rcases List.mem_cons.mp he with he | he
        · subst he
          exact ih e e (List.mem_cons_self e ts)
        · rcases List.mem_cons.mp he with he | he
          · subst he
            cases hcon : AudioTask.lt e (findMin m ts) with
            | false => rfl
            | true =>
                have h1 : AudioTask.lt m (findMin m ts) = false :=
                  ih m m (List.mem_cons_self m ts)
                have h2 : AudioTask.lt e m = true :=
                  lt_of_lt_of_not_lt e m (findMin m ts) hcon h1
                rw [h2] at hlt
                exact absurd rfl hlt
          · exact ih m e (List.mem_cons_of_mem m he)

/-- C1: among tasks simultaneously present in the queue, delivery follows
the `AudioTask` ordering: while a task `t1` that orders before `t2`
(strictly higher priority, or equal priority with an earlier timestamp) is
still in the queue, the dequeued element is never `t2`, so `t2` is
delivered to the synthesis callable only after `t1`. -/
theorem worker_delivers_in_task_order (q : List AudioTask) (t1 t2 : AudioTask)
    (h1 : t1 ∈ q) (h2 : t2 ∈ q)
    (hord : t1.priority > t2.priority ∨
      (t1.priority = t2.priority ∧ t1.timestamp < t2.timestamp)) :
    queueGet q ≠ some t2 := by
  cases q with
  | nil => simp at h1
  | cons t ts =>
      intro hcon
      have hfm : findMin t ts = t2 := by
        simpa [queueGet] using hcon
      have hmin : AudioTask.lt t1 (findMin t ts) = false := findMin_not_lt ts t t1 h1
      have hlt : AudioTask.lt t1 t2 = true := (lt_iff t1 t2).mpr hord
      rw [hfm, hlt] at hmin
      exact absurd hmin (by simp)

/-- Two sample tasks for the concrete witnesses: a low-priority task that
arrived first, and a high-priority task that arrived later. -/
def taskLow : AudioTask := { text := ['L'], priority := 1, timestamp := 0 }

def taskHigh : AudioTask := { text := ['H'], priority := 10, timestamp := 1 }

theorem worker_delivers_in_task_order_witness :
    taskLow ∈ [taskLow, taskHigh] ∧ taskHigh ∈ [taskLow, taskHigh] ∧
    taskHigh.priority > taskLow.priority ∧
    queueGet [taskLow, taskHigh] ≠ some taskLow :=
  ⟨by decide, by decide, by decide,
    worker_delivers_in_task_order [taskLow, taskHigh] taskHigh taskLow
      (by decide) (by decide) (Or.inl (by decide))⟩

/-- C2: `AudioTask.__lt__` holds exactly when the left task has strictly
higher priority, or equal priority and a strictly earlier timestamp; it is
a total (never-throwing) Boolean function, irreflexive and transitive — a
strict weak ordering suitable for the binary heap under `PriorityQueue`. -/
theorem audioTask_lt_strict_weak_order (a b c : AudioTask) :
    (AudioTask.lt a b = true ↔ a.priority > b.priority ∨
      (a.priority = b.priority ∧ a.timestamp < b.timestamp)) ∧
    AudioTask.lt a a = false ∧
    (AudioTask.lt a b = true → AudioTask.lt b c = true →
      AudioTask.lt a c = true) :=
  ⟨lt_iff a b, lt_irrefl_bool a, lt_trans_bool a b c⟩

theorem audioTask_lt_strict_weak_order_witness :
    AudioTask.lt taskHigh taskLow = true ∧
    AudioTask.lt taskLow { text := ['Z'], priority := 0, timestamp := 5 } = true ∧
    AudioTask.lt taskHigh { text := ['Z'], priority := 0, timestamp := 5 } = true :=
  ⟨by decide, by decide,
    (audioTask_lt_strict_weak_order taskHigh taskLow
      { text := ['Z'], priority := 0, timestamp := 5 }).2.2 (by decide) (by decide)⟩

/-- C6: blank input (empty or all-whitespace text) is rejected before any
state is touched: `enqueue` returns `False` and the entire manager state —
queue, ledger and every counter — is returned unchanged. -/
theorem enqueue_blank_rejected (s : ManagerState) (text : List Char)
    (priority : Int) (now : Int) (hblank : blankText text = true) :
    enqueue s text priority now = (false, s) := by
  unfold enqueue
  simp [hblank]

theorem enqueue_blank_rejected_witness :
    blankText [] = true ∧ blankText [' ', ' ', ' '] = true ∧
    enqueue (ManagerState.init 50 2) [] 0 0 = (false, ManagerState.init 50 2) ∧
    enqueue (ManagerState.init 50 2) [' ', ' ', ' '] 5 1 =
      (false, ManagerState.init 50 2) :=
  ⟨by decide, by decide,
    enqueue_blank_rejected (ManagerState.init 50 2) [] 0 0 (by decide),
    enqueue_blank_rejected (ManagerState.init 50 2) [' ', ' ', ' '] 5 1 (by decide)⟩

/-- C10: an `enqueue` call rejected as a duplicate performs no ledger
write: the call returns `False`, increments only
`messages_skipped_duplicate`, and leaves the recent-message ledger (and
the queue and all other counters) exactly as they were, so the suppression
window keeps being measured from the last accepted enqueue. -/
theorem enqueue_duplicate_no_ledger_write (s : ManagerState) (text : List Char)
    (priority : Int) (now : Int) (hblank : blankText text = false)
    (hdup : isDuplicate s text now = true) :
    enqueue s text priority now =
      (false, { s with stats := { s.stats with
        messages_skipped_duplicate := s.stats.messages_skipped_duplicate + 1 } }) := by
  unfold enqueue
  simp [hblank, hdup]

/-- A concrete manager state whose ledger already holds the text "hi"
accepted at time 10, used by the duplicate-handling witnesses. -/
def stateWithHi : ManagerState :=
  { ManagerState.init 50 2 with recent_messages := [(['h', 'i'], 10)] }

theorem enqueue_duplicate_no_ledger_write_witness :
    blankText ['h', 'i'] = false ∧
    isDuplicate stateWithHi ['h', 'i'] 11 = true ∧
    enqueue stateWithHi ['h', 'i'] 0 11 =
      (false, { stateWithHi with stats := { stateWithHi.stats with
        messages_skipped_duplicate := stateWithHi.stats.messages_skipped_duplicate + 1 } }) :=
  ⟨by decide, by decide,
    enqueue_duplicate_no_ledger_write stateWithHi ['h', 'i'] 0 11
      (by decide) (by decide)⟩

theorem lookup_insert (m : RecentMap) (text : List Char) (ts : Int) :
    RecentMap.lookup (RecentMap.insert m text ts) text = some ts := by
  induction m with
  | nil => simp [RecentMap.insert, RecentMap.lookup]
  | cons kv rest ih =>
      obtain ⟨k, v⟩ := kv
      by_cases hk : k = text
      · simp [RecentMap.insert, RecentMap.lookup, hk]
      · simp [RecentMap.insert, RecentMap.lookup, hk, ih]

theorem lookup_filter (m : RecentMap) (text : List Char) (v : Int)
    (p : List Char × Int → Bool)
    (hl : RecentMap.lookup m text = some v) (hp : p (text, v) = true) :
    RecentMap.lookup (m.filter p) text = some v := by
  induction m with
  | nil => simp [RecentMap.lookup] at hl
  | cons kv rest ih =>
      obtain ⟨k, w⟩ := kv
      by_cases hk : k = text
      · subst hk
        rw [RecentMap.lookup] at hl
        simp at hl
        subst hl
        simp [List.filter, hp, RecentMap.lookup]
      · rw [RecentMap.lookup] at hl
        rw [if_neg hk] at hl
        cases hkeep : p (k, w) with
        | true => simp [List.filter, hkeep, RecentMap.lookup, hk, ih hl]
        | false => simp [List.filter, hkeep, ih hl]

theorem lookup_trackMessage (recent : RecentMap) (timeout : Int)
    (text : List Char) (now : Int) (hpos : 0 < timeout) :
    RecentMap.lookup (trackMessage recent timeout text now) text = some now := by
  unfold trackMessage
  by_cases hlen : 100 < (RecentMap.insert recent text now).length
  · simp only [hlen, if_true]
    exact lookup_filter _ text now _ (lookup_insert recent text now)
      (by simp; linarith)
  · simp only [hlen, if_false]
    exact lookup_insert recent text now

theorem enqueue_of_duplicate (s : ManagerState) (text : List Char)
    (priority : Int) (now : Int) (hblank : blankText text = false)
    (hdup : isDuplicate s text now = true) :
    enqueue s text priority now =
      (false, { s with stats := { s.stats with
        messages_skipped_duplicate := s.stats.messages_skipped_duplicate + 1 } }) := by
  unfold enqueue
  simp [hblank, hdup]

theorem enqueue_of_accept (s : ManagerState) (text : List Char)
    (priority : Int) (now : Int) (hblank : blankText text = false)
    (hfresh : isDuplicate s text now = false)
    (hroom : ¬ (0 < s.max_queue_size ∧
      s.max_queue_size ≤ (s.queue.length : Int))) :
    enqueue s text priority now =
      (true, { s with
        queue := s.queue ++ [{ text := text, priority := priority, timestamp := now }],
        stats := { s.stats with messages_queued := s.stats.messages_queued + 1 },
        recent_messages :=
          trackMessage s.recent_messages s.duplicate_timeout text now }) := by
  unfold enqueue putNowait
  simp [hblank, hfresh, hroom]

theorem enqueue_of_full (s : ManagerState) (text : List Char)
    (priority : Int) (now : Int) (hblank : blankText text = false)
    (hfresh : isDuplicate s text now = false)
    (hfull : 0 < s.max_queue_size ∧ s.max_queue_size ≤ (s.queue.length : Int)) :
    enqueue s text priority now =
      (false, { s with stats := { s.stats with
        messages_skipped_full := s.stats.messages_skipped_full + 1 } }) := by
  unfold enqueue putNowait
  simp [hblank, hfresh, hfull]

/-- C3: accepting a text and enqueuing the exact same text again within
`duplicate_timeout` of the accepted call: the first call returns `True`,
the second returns `False`, increments `messages_skipped_duplicate` by
exactly one and leaves the queue unchanged; re-enqueuing the same text
more than `duplicate_timeout` after the accepted call (queue capacity
permitting) returns `True` again. -/
theorem enqueue_duplicate_window (s : ManagerState) (text : List Char)
    (p1 p2 p3 : Int) (now1 now2 now3 : Int)
    (hblank : blankText text = false)
    (hfresh : isDuplicate s text now1 = false)
    (hroom1 : ¬ (0 < s.max_queue_size ∧
      s.max_queue_size ≤ (s.queue.length : Int)))
    (hord : now1 ≤ now2)
    (hwin : now2 - now1 < s.duplicate_timeout)
    (hlate : s.duplicate_timeout < now3 - now1)
    (hroom3 : ¬ (0 < s.max_queue_size ∧
      s.max_queue_size ≤ (s.queue.length : Int) + 1)) :
    (enqueue s text p1 now1).1 = true ∧
    (enqueue (enqueue s text p1 now1).2 text p2 now2).1 = false ∧
    (enqueue (enqueue s text p1 now1).2 text p2 now2).2.stats.messages_skipped_duplicate
      = (enqueue s text p1 now1).2.stats.messages_skipped_duplicate + 1 ∧
    (enqueue (enqueue s text p1 now1).2 text p2 now2).2.queue
      = (enqueue s text p1 now1).2.queue ∧
    (enqueue (enqueue (enqueue s text p1 now1).2 text p2 now2).2 text p3 now3).1
      = true := by
  have htpos : 0 < s.duplicate_timeout := by omega
  have h1 := enqueue_of_accept s text p1 now1 hblank hfresh hroom1
  rw [h1]
  have hlook : RecentMap.lookup
      (trackMessage s.recent_messages s.duplicate_timeout text now1) text
      = some now1 :=
    lookup_trackMessage s.recent_messages s.duplicate_timeout text now1 htpos
  have hdup2 : isDuplicate
      { s with
        queue := s.queue ++ [{ text := text, priority := p1, timestamp := now1 }],
        stats := { s.stats with messages_queued := s.stats.messages_queued + 1 },
        recent_messages :=
          trackMessage s.recent_messages s.duplicate_timeout text now1 }
      text now2 = true := by
    unfold isDuplicate
    simp only [hlook]
    simpa using hwin
  have h2 := enqueue_of_duplicate _ text p2 now2 hblank hdup2
  rw [h2]
  refine ⟨rfl, rfl, rfl, rfl, ?_⟩
  have hdup3 : isDuplicate
      { s with
        queue := s.queue ++ [{ text := text, priority := p1, timestamp := now1 }],
        stats := { s.stats with
          messages_queued := s.stats.messages_queued + 1,
          messages_skipped_duplicate := s.stats.messages_skipped_duplicate + 1 },
        recent_messages :=
          trackMessage s.recent_messages s.duplicate_timeout text now1 }
      text now3 = false := by
    unfold isDuplicate
    simp only [hlook]
    simp
    omega
  have hroom3' : ¬ (0 < (s.max_queue_size : Int) ∧
      (s.max_queue_size : Int) ≤
        (((s.queue ++
          [({ text := text, priority := p1, timestamp := now1 } : AudioTask)]).length : Nat) : Int)) := by
    simpa [List.length_append] using hroom3
  have h3 := enqueue_of_accept _ text p3 now3 hblank hdup3 hroom3'
  rw [h3]

theorem enqueue_duplicate_window_witness :
    (1 : Int) - 0 < (ManagerState.init 50 2).duplicate_timeout ∧
    (ManagerState.init 50 2).duplicate_timeout < (3 : Int) - 0 ∧
    (enqueue (ManagerState.init 50 2) ['h', 'i'] 0 0).1 = true ∧
    (enqueue (enqueue (ManagerState.init 50 2) ['h', 'i'] 0 0).2
      ['h', 'i'] 0 1).1 = false ∧
    (enqueue (enqueue (enqueue (ManagerState.init 50 2) ['h', 'i'] 0 0).2
      ['h', 'i'] 0 1).2 ['h', 'i'] 0 3).1 = true := by
  have h := enqueue_duplicate_window (ManagerState.init 50 2) ['h', 'i']
    0 0 0 0 1 3 (by decide) (by decide) (by decide) (by decide) (by decide)
    (by decide) (by decide)
  exact ⟨by decide, by decide, h.1, h.2.1, h.2.2.2.2⟩

/-- C4: with a positive capacity, the queue never grows beyond
`max_queue_size` through `enqueue`; and when the queue already holds
exactly `max_queue_size` tasks, a further enqueue of admissible
(non-blank, non-duplicate) text returns `False`, increments
`messages_skipped_full` by one, evicts nothing (the whole state apart
from that counter, including the queue and `messages_queued`, is
unchanged) regardless of priorities. -/
theorem queue_capacity_invariant (s : ManagerState) (text : List Char)
    (priority now : Int) (hpos : 0 < s.max_queue_size) :
    (((s.queue.length : Int) ≤ s.max_queue_size) →
      (((enqueue s text priority now).2.queue.length : Int) ≤ s.max_queue_size)) ∧
    (((s.queue.length : Int) = s.max_queue_size) →
      blankText text = false → isDuplicate s text now = false →
      enqueue s text priority now =
        (false, { s with stats := { s.stats with
          messages_skipped_full := s.stats.messages_skipped_full + 1 } })) := by
  constructor
  · intro hlen
    by_cases hb : blankText text = true
    · simp [enqueue, hb]
      exact hlen
    · have hb' : blankText text = false := by simpa using hb
      by_cases hd : isDuplicate s text now = true
      · rw [enqueue_of_duplicate s text priority now hb' hd]
        exact hlen
      · have hd' : isDuplicate s text now = false := by simpa using hd
        by_cases hf : 0 < s.max_queue_size ∧
            s.max_queue_size ≤ (s.queue.length : Int)
        · rw [enqueue_of_full s text priority now hb' hd' hf]
          exact hlen
        · rw [enqueue_of_accept s text priority now hb' hd' hf]
          push_neg at hf
          have := hf hpos
          simp only [List.length_append, List.length_cons, List.length_nil]
          push_cast
          omega
  · intro hlen hb hd
    exact enqueue_of_full s text priority now hb hd ⟨hpos, le_of_eq hlen.symm⟩

/-- A manager with capacity 1 whose queue is already full, for the
capacity witnesses. -/
def fullState : ManagerState :=
  { ManagerState.init 1 2 with queue := [taskLow] }

theorem queue_capacity_invariant_witness :
    0 < fullState.max_queue_size ∧
    (fullState.queue.length : Int) = fullState.max_queue_size ∧
    (((enqueue fullState ['h', 'i'] 99 0).2.queue.length : Int)
      ≤ fullState.max_queue_size) ∧
    enqueue fullState ['h', 'i'] 99 0 =
      (false, { fullState with stats := { fullState.stats with
        messages_skipped_full := fullState.stats.messages_skipped_full + 1 } }) := by
  have h := queue_capacity_invariant fullState ['h', 'i'] 99 0 (by decide)
  exact ⟨by decide, by decide, h.1 (by decide),
    h.2 (by decide) (by decide) (by decide)⟩

/-- `AudioQueueManager._play_audio`: invoke the injected TTS callable on
the text; on success increment `messages_played`, and when the callable
raises (`tts text = false`) catch the exception, increment `errors` and
return normally — the exception never escapes. -/
def playAudio (tts : List Char → Bool) (st : Stats) (text : List Char) : Stats :=
  if tts text then { st with messages_played := st.messages_played + 1 }
  else { st with errors := st.errors + 1 }

/-- `AudioQueueManager._worker_loop` run over the sequence of tasks the
queue hands out, with the shutdown event never set: each dequeued task
whose priority is not the sentinel value `-1000` is played via
`_play_audio`; on a task with priority `-1000` the loop breaks at once.
Returns the final statistics, the texts delivered to the TTS callable in
order, and whether the loop exited via the `break`. -/
def workerRun (tts : List Char → Bool) (st : Stats) :
    List AudioTask → Stats × List (List Char) × Bool
  | [] => (st, [], false)
  | t :: ts =>
      if t.priority = -1000 then (st, [], true)
      else
        let rest := workerRun tts (playAudio tts st t.text) ts
        (rest.1, t.text :: rest.2.1, rest.2.2)

/-- C5: a TTS callable that raises on every call never crashes the
worker: each task is still consumed, `errors` grows by one per task,
`messages_played` is untouched, every task's text is still handed to the
callable in turn (the loop keeps going) and the loop never breaks; in
particular from fresh statistics, after N tasks `errors = N` and
`messages_played = 0`. -/
theorem worker_survives_tts_errors (tts : List Char → Bool) (st : Stats)
    (tasks : List AudioTask)
    (hfail : ∀ text, tts text = false)
    (hns : ∀ t ∈ tasks, t.priority ≠ -1000) :
    (workerRun tts st tasks).1.errors = st.errors + tasks.length ∧
    (workerRun tts st tasks).1.messages_played = st.messages_played ∧
    (workerRun tts st tasks).2.1 = tasks.map AudioTask.text ∧
    (workerRun tts st tasks).2.2 = false := by
  induction tasks generalizing st with
  | nil => simp [workerRun]
  | cons t ts ih =>
      have hts : ∀ u ∈ ts, u.priority ≠ -1000 :=
        fun u hu => hns u (List.mem_cons_of_mem t hu)
      have hplay : playAudio tts st t.text =
          { st with errors := st.errors + 1 } := by
        unfold playAudio
        rw [hfail t.text]
        simp
      have hne : t.priority ≠ -1000 := hns t (List.mem_cons_self t ts)
      obtain ⟨ih1, ih2, ih3, ih4⟩ := ih { st with errors := st.errors + 1 } hts
      unfold workerRun
      rw [if_neg hne, hplay]
      refine ⟨?_, ?_, ?_, ?_⟩
      · simp [ih1, List.length_cons]
        omega
      · simpa using ih2
      · simpa using ih3
      · simpa using ih4

theorem worker_survives_tts_errors_witness :
    (workerRun (fun _ => false) Stats.init [taskLow, taskHigh]).1.errors
      = Stats.init.errors + [taskLow, taskHigh].length ∧
    (workerRun (fun _ => false) Stats.init [taskLow, taskHigh]).1.messages_played
      = Stats.init.messages_played := by
  have h := worker_survives_tts_errors (fun _ => false) Stats.init
    [taskLow, taskHigh] (fun _ => rfl) (by decide)
  exact ⟨h.1, h.2.1⟩

theorem workerRun_sentinel (tts : List Char → Bool) (t : AudioTask)
    (post : List AudioTask) (ht : t.priority = -1000) :
    ∀ (pre : List AudioTask) (st : Stats), (∀ u ∈ pre, u.priority ≠ -1000) →
      (workerRun tts st (pre ++ t :: post)).2.1 = pre.map AudioTask.text ∧
      (workerRun tts st (pre ++ t :: post)).2.2 = true := by
  intro pre
  induction pre with
  | nil =>
      intro st _
      simp [workerRun, ht]
  | cons u us ih =>
      intro st hpre
      have hu : u.priority ≠ -1000 := hpre u (List.mem_cons_self u us)
      have hus : ∀ v ∈ us, v.priority ≠ -1000 :=
        fun v hv => hpre v (List.mem_cons_of_mem u hv)
      obtain ⟨ih1, ih2⟩ := ih (playAudio tts st u.text) hus
      simp [workerRun, hu, ih1, ih2]

/-- C9: admission enforces no priority range, so a caller can enqueue a
legitimate task with the sentinel priority `-1000` (the call returns
`True`); and whenever the worker dequeues any task whose priority is
`-1000`, it breaks out of its loop at once without handing that task's
text (or anything queued behind it) to the synthesis callable — the
worker stops even though shutdown was never requested. -/
theorem sentinel_priority_enqueue_halts_worker
    (s : ManagerState) (text : List Char) (now : Int)
    (hblank : blankText text = false)
    (hfresh : isDuplicate s text now = false)
    (hroom : ¬ (0 < s.max_queue_size ∧
      s.max_queue_size ≤ (s.queue.length : Int)))
    (tts : List Char → Bool) (st : Stats)
    (pre post : List AudioTask) (t : AudioTask)
    (hpre : ∀ u ∈ pre, u.priority ≠ -1000) (ht : t.priority = -1000) :
    (enqueue s text (-1000) now).1 = true ∧
    (workerRun tts st (pre ++ t :: post)).2.1 = pre.map AudioTask.text ∧
    (workerRun tts st (pre ++ t :: post)).2.2 = true := by
  have h1 := enqueue_of_accept s text (-1000) now hblank hfresh hroom
  obtain ⟨h2, h3⟩ := workerRun_sentinel tts t post ht pre st hpre
  rw [h1]
  exact ⟨rfl, h2, h3⟩

/-- A legitimate user task carrying the sentinel priority `-1000`. -/
def userSentinelTask : AudioTask :=
  { text := ['o', 'k'], priority := -1000, timestamp := 0 }

theorem sentinel_priority_enqueue_halts_worker_witness :
    (enqueue (ManagerState.init 50 2) ['o', 'k'] (-1000) 0).1 = true ∧
    (workerRun (fun _ => true) Stats.init
      [taskLow, userSentinelTask, taskHigh]).2.1 = [taskLow].map AudioTask.text ∧
    (workerRun (fun _ => true) Stats.init
      [taskLow, userSentinelTask, taskHigh]).2.2 = true := by
  have h := sentinel_priority_enqueue_halts_worker (ManagerState.init 50 2)
    ['o', 'k'] 0 (by decide) (by decide) (by decide) (fun _ => true) Stats.init
    [taskLow] [taskHigh] userSentinelTask (by decide) (by decide)
  exact ⟨h.1, h.2.1, h.2.2⟩

/-- `AudioQueueManager.shutdown`: returns immediately when the worker
thread was never created; otherwise sets the shutdown event, tries
`put_nowait` on a sentinel task `AudioTask("", priority=-1000)` with
`queue.Full` caught and ignored, joins the worker (which exits once it
observes the event or the sentinel; modelled as the alive flag dropping to
`false`) and logs statistics. The `Except` result makes any escaping
exception explicit. -/
def shutdown (s : ManagerState) (now : Int) : Except String ManagerState :=
  match s.worker_thread with
  | none => Except.ok s
  | some _ =>
      let s1 := { s with shutdown_event := true }
      let s2 :=
        match putNowait s1.max_queue_size s1.queue
            { text := [], priority := -1000, timestamp := now } with
        | some q => { s1 with queue := q }
        | none => s1
      Except.ok { s2 with worker_thread := some false }

theorem shutdown_isOk (s : ManagerState) (now : Int) :
    (shutdown s now).isOk = true := by
  unfold shutdown
  cases s.worker_thread <;> rfl

/-- C7: `shutdown` never raises: on a manager that was never started it
returns at once, and calling it a second time after a completed shutdown
also completes without an exception escaping. -/
theorem shutdown_idempotent_safe (s : ManagerState) (now now' : Int) :
    (shutdown s now).isOk = true ∧
    (∀ s', shutdown s now = Except.ok s' →
      (shutdown s' now').isOk = true) :=
  ⟨shutdown_isOk s now, fun s' _ => shutdown_isOk s' now'⟩

theorem shutdown_idempotent_safe_witness :
    (shutdown (ManagerState.init 50 2) 0).isOk = true ∧
    (shutdown (ManagerState.init 50 2) 1).isOk = true :=
  ⟨(shutdown_idempotent_safe (ManagerState.init 50 2) 0 1).1,
    (shutdown_idempotent_safe (ManagerState.init 50 2) 0 1).2
      (ManagerState.init 50 2) rfl⟩

/-- A ledger holding 150 distinct texts, all time-stamped 0 (all accepted
within the same duplicate window). -/
def freshLedger : RecentMap :=
  (List.range 150).map (fun i => ([Char.ofNat i], (0 : Int)))

set_option maxRecDepth 8000

/-- C8 counterexample: the recent-message ledger is not capped at ~100
entries. Starting from 150 distinct texts all accepted at time 0 with
`duplicate_timeout = 2`, tracking one more text at time 0 triggers the
cleanup branch (the dict holds 151 > 100 entries), yet the cleanup evicts
nothing — no entry is expired — and the ledger ends with 151 entries. -/
theorem trackMessage_unbounded_counterexample :
    100 < (RecentMap.insert freshLedger [Char.ofNat 200] 0).length ∧
    trackMessage freshLedger 2 [Char.ofNat 200] 0
      = RecentMap.insert freshLedger [Char.ofNat 200] 0 ∧
    (trackMessage freshLedger 2 [Char.ofNat 200] 0).length = 151 := by
  refine ⟨by decide, by decide, by decide⟩

/-- C8 amended: when an insertion leaves the ledger with more than 100
entries, the cleanup evicts exactly the expired entries — those whose
timestamp is at most `now - duplicate_timeout` — and keeps every entry
still inside the duplicate window; at most 100 entries it is left as
inserted. The ledger is therefore bounded only by the number of distinct
texts accepted within one `duplicate_timeout` window, not by ~100. -/
theorem trackMessage_evicts_only_expired (recent : RecentMap) (timeout : Int)
    (text : List Char) (now : Int) :
    (100 < (RecentMap.insert recent text now).length →
      trackMessage recent timeout text now =
        (RecentMap.insert recent text now).filter
          (fun p => decide (now - timeout < p.2)) ∧
      ∀ p ∈ trackMessage recent timeout text now, now - timeout < p.2) ∧
    ((RecentMap.insert recent text now).length ≤ 100 →
      trackMessage recent timeout text now = RecentMap.insert recent text now) := by
  constructor
  · intro hlen
    have heq : trackMessage recent timeout text now =
        (RecentMap.insert recent text now).filter
          (fun p => decide (now - timeout < p.2)) := by
      unfold trackMessage
      simp [hlen]
    refine ⟨heq, ?_⟩
    intro p hp
    rw [heq] at hp
    simpa using (List.mem_filter.mp hp).2
  · intro hlen
    unfold trackMessage
    simp [Nat.not_lt.mpr hlen]

theorem trackMessage_evicts_only_expired_witness :
    (∀ p ∈ trackMessage freshLedger 2 [Char.ofNat 200] 0, (0 : Int) - 2 < p.2) ∧
    trackMessage ([] : RecentMap) 2 ['a'] 0 = RecentMap.insert [] ['a'] 0 :=
  ⟨((trackMessage_evicts_only_expired freshLedger 2 [Char.ofNat 200] 0).1
      (by decide)).2,
    (trackMessage_evicts_only_expired [] 2 ['a'] 0).2 (by decide)⟩
